import Mathlib

/-!
Shallow embedding of `src/PrettierEditProvider.ts` from the
`prettier-standard-vscode` extension, together with proofs of the spec's
claims about it.

The module under verification is an editor-formatting bridge: it selects a
formatting engine (project-local vs bundled prettier), picks a parser for the
document's language, resolves and merges three configuration layers, invokes
the formatter, pipes the result through a linter autofix pass, and wraps the
final text as a full-document replacement edit.

Modelling conventions:
- JavaScript objects used as configuration bags become `ConfigMap`, a partial
  map from string keys to `ConfigValue`; `Object.assign` becomes
  `objectAssign`, last-writer-wins per key (absent = `undefined`).
- External collaborators (the prettier library, the standard linter, the host
  configuration store, and repository helpers that are not part of the file
  under `src/`) are fields of an `Env` record, so every theorem is quantified
  over their behaviour.
- Fallible external calls return `Except String α` (an `error` is a thrown
  exception / rejected promise).
- Observable effects (diagnostic output, `setUsedModule`, formatter and linter
  invocations, config-resolution calls) are recorded as an `Event` trace; the
  functions return `result × List Event`.
- The async chain is linear (one request, no interleaving), so promises are
  modelled by direct sequential evaluation.
-/

namespace PrettierStandard

/-- A configuration value stored under a key of a configuration object. -/
inductive ConfigValue where
  | str (s : String)
  | num (n : Nat)
  | bool (b : Bool)
deriving DecidableEq

/-- A JavaScript-style configuration object: a partial map from keys to
values.  An absent key models `undefined`. -/
def ConfigMap := String → Option ConfigValue

/-- The empty configuration object `\x7b\x7d`. -/
def emptyConfig : ConfigMap := fun _ => none

/-- `Object.assign(target, source)` restricted to two arguments: for each key
the source's value wins when the source has the key, otherwise the target's
value is kept.  Shallow, last-writer-wins. -/
def objectAssign (target source : ConfigMap) : ConfigMap := fun k =>
  match source k with
  | some v => some v
  | none => target k

/-- The object literal `\x7b parser: vscodeConfig.parser \x7d`: only the
`parser` key, seeded from the given configuration. -/
def parserSeed (vscodeConfig : ConfigMap) : ConfigMap := fun k =>
  if k = "parser" then vscodeConfig "parser" else none

/-- `mergeConfig` from `PrettierEditProvider.ts` (lines 73-86).
If a prettier config file exists the base layer is only the seeded parser;
otherwise the base layer is the whole vscode configuration.  Priority:
additionalConfig over prettierConfig over the base layer. -/
def mergeConfig (hasPrettierConfig : Bool)
    (additionalConfig prettierConfig vscodeConfig : ConfigMap) : ConfigMap :=
  if hasPrettierConfig then
    objectAssign (objectAssign (parserSeed vscodeConfig) prettierConfig) additionalConfig
  else
    objectAssign (objectAssign vscodeConfig prettierConfig) additionalConfig

/-- The host (vscode) configuration surface consumed by the module: the keys
read from `getConfig(uri)` in `format`. -/
structure PrettierVSCodeConfig where
  printWidth : Nat
  tabWidth : Nat
  singleQuote : Bool
  trailingComma : String
  bracketSpacing : Bool
  jsxBracketSameLine : Bool
  semi : Bool
  useTabs : Bool
  proseWrap : String
  arrowParens : String
  parser : String
  disableLanguages : List String
  requireConfig : Bool

/-- One entry of a prettier language-support group: only its parser list is
read (`lang.parsers.includes(parser)`). -/
structure LanguageDescription where
  parsers : List String

/-- The host editor's text document, restricted to the fields the module
reads: `fileName`, `languageId`, `uri`, `isUntitled`, and the text content
(kept as lines so that `lineCount` / `lineAt` are definable). -/
structure TextDocument where
  fileName : String
  languageId : String
  uri : String
  isUntitled : Bool
  lines : List String

/-- A position in a document (zero-based line and character). -/
structure Position where
  line : Nat
  character : Nat
deriving DecidableEq

/-- A document range; `stop` models the vscode `Range` field `end`. -/
structure Range where
  start : Position
  stop : Position
deriving DecidableEq

/-- A host text edit.  The module only ever builds `TextEdit.replace`. -/
inductive TextEdit where
  | replace (range : Range) (newText : String)
deriving DecidableEq

/-- Observable effects of one formatting request.
`output` models `addToOutput(message)` (modelled from the spec: the
diagnostics collaborator of `errorHandler.ts` is "append message to output");
`errorReport` models the diagnostic entry the failure-recovery wrapper
records; `usedModule` models `setUsedModule(name, version, isBundled)`;
`formatCall`/`lintCall` record invocations of the external formatter (with the
engine used and the text passed) and linter; `resolveConfigCall` records calls
into the prettier library's config resolution with the options used. -/
inductive Event where
  | output (msg : String)
  | errorReport (msg fileName : String)
  | usedModule (name version : String) (isBundled : Bool)
  | formatCall (bundled : Bool) (text : String)
  | lintCall (text : String)
  | resolveConfigCall (fileName : String) (editorconfig : Option Bool)
deriving DecidableEq

/-- The environment of one formatting request: the external collaborators and
the repository helpers that live outside the file under `src/`.

Modelled from the spec where the repository file is missing from `src/`:
`getConfig`, `getParsersFromLanguageId` and `getGroup` come from `utils.ts`
(spec §4.2: parser candidates for a language id, formatter version and
optional path; language groups carrying parser lists); `requireLocalPkg` from
`requirePkg.ts` is the source of the local prettier module, represented by
`localVersion`/`localFormat`.  The bundled prettier library and the standard
linter are external: `bundledVersion`, `bundledFormat`,
`prettierResolveConfig` (its outcome keyed by path and the `editorconfig`
option; `error` is a throw/rejection) and `lintText` (the composite
`standardLintText(text, \x7bfix, parser\x7d)` followed by reading
`results[0].output`, any failure an `error`).  `fileIsIgnored` is the
ignore-predicate injected into the `PrettierEditProvider` constructor. -/
structure Env where
  getConfig : String → PrettierVSCodeConfig
  localVersion : String
  bundledVersion : String
  getParsersFromLanguageId : String → String → Option String → List String
  getGroup : String → List LanguageDescription
  prettierResolveConfig : String → Option Bool → Except String (Option ConfigMap)
  localFormat : String → ConfigMap → Except String String
  bundledFormat : String → ConfigMap → Except String String
  lintText : String → Except String String
  fileIsIgnored : String → Bool

/-- Result shape of the `resolveConfig` wrapper (lines 41, 48-58). -/
structure ResolveConfigResult where
  config : Option ConfigMap
  error : Option String

/-- `resolveConfig` from `PrettierEditProvider.ts` (lines 48-58): wraps the
library call; on a throw it resolves with `config := none` and the error
recorded.  Totality of this function is the "never throws" guarantee. -/
def resolveConfig (env : Env) (filePath : String) (options : Option Bool) :
    ResolveConfigResult :=
  match env.prettierResolveConfig filePath options with
  | Except.ok config => { config := config, error := none }
  | Except.error e => { config := none, error := some e }

/-- `hasPrettierConfig` from `PrettierEditProvider.ts` (lines 36-39):
`config !== null` for the resolution done without options. -/
def hasPrettierConfig (env : Env) (filePath : String) : Bool :=
  (resolveConfig env filePath none).config.isSome

/-- JavaScript `a || b` on strings, with `undefined` read as the empty
string: used for `bundledParsers[0] || 'babylon'` (line 122). -/
def jsOrStr (a b : String) : String := if a = "" then b else a

/-- `isUntitled ? undefined : fileName` (lines 111 and 120). -/
def docPath (doc : TextDocument) : Option String :=
  if doc.isUntitled then none else some doc.fileName

/-- The parser candidates advertised by the project-local formatter
(lines 108-112). -/
def dynamicParsers (env : Env) (doc : TextDocument) : List String :=
  env.getParsersFromLanguageId doc.languageId env.localVersion (docPath doc)

/-- The parser candidates advertised by the bundled formatter
(lines 117-121). -/
def bundledParsers (env : Env) (doc : TextDocument) : List String :=
  env.getParsersFromLanguageId doc.languageId env.bundledVersion (docPath doc)

/-- The parser selection of `format` (lines 113-129): returns the chosen
parser together with the `useBundled` flag.  Empty local candidate list:
first bundled candidate or the fixed default `babylon`, `useBundled := true`.
Otherwise honour a deprecated explicit override from the host configuration
when it is among the local candidates, else take the first local candidate. -/
def selectParser (env : Env) (doc : TextDocument) : String × Bool :=
  match dynamicParsers env doc with
  | [] => (jsOrStr ((bundledParsers env doc).headD "") "babylon", true)
  | p :: ps =>
      if (p :: ps).contains (env.getConfig doc.uri).parser then
        ((env.getConfig doc.uri).parser, false)
      else
        (p, false)

/-- `doesParserSupportEslint` (lines 130-132): is the chosen parser among the
parsers of some language in the `JavaScript` group. -/
def doesParserSupportEslint (env : Env) (parser : String) : Bool :=
  (env.getGroup "JavaScript").any fun lang => lang.parsers.contains parser

/-- The branch condition `!doesParserSupportEslint && useBundled`
(line 169) deciding which engine code path `format` takes. -/
def usesBundled (env : Env) (doc : TextDocument) : Bool :=
  !(doesParserSupportEslint env (selectParser env doc).1) && (selectParser env doc).2

/-- The formatting engine of the code path selected by `usesBundled`:
`bundledPrettier.format` on the fallback path (line 185), otherwise
`localPrettier.format` (line 203). -/
def chosenEngineFormat (env : Env) (doc : TextDocument) :
    String → ConfigMap → Except String String :=
  if usesBundled env doc then env.bundledFormat else env.localFormat

/-- The object literal passed as `vscodeConfig` to `mergeConfig`
(lines 154-166): the host configuration keys plus the selected parser. -/
def vscodeOptionsLayer (c : PrettierVSCodeConfig) (parser : String) : ConfigMap :=
  fun k =>
    if k = "printWidth" then some (ConfigValue.num c.printWidth)
    else if k = "tabWidth" then some (ConfigValue.num c.tabWidth)
    else if k = "singleQuote" then some (ConfigValue.bool c.singleQuote)
    else if k = "trailingComma" then some (ConfigValue.str c.trailingComma)
    else if k = "bracketSpacing" then some (ConfigValue.bool c.bracketSpacing)
    else if k = "jsxBracketSameLine" then some (ConfigValue.bool c.jsxBracketSameLine)
    else if k = "parser" then some (ConfigValue.str parser)
    else if k = "semi" then some (ConfigValue.bool c.semi)
    else if k = "useTabs" then some (ConfigValue.bool c.useTabs)
    else if k = "proseWrap" then some (ConfigValue.str c.proseWrap)
    else if k = "arrowParens" then some (ConfigValue.str c.arrowParens)
    else none

/-- The `prettierOptions` computed by `format` (lines 150-167):
`mergeConfig(hasConfig, customOptions, fileOptions || \x7b\x7d, vscodeLayer)`,
where `fileOptions` is the config resolved with `editorconfig: true`. -/
def mergedOptions (env : Env) (doc : TextDocument) (customOptions : ConfigMap) :
    ConfigMap :=
  mergeConfig (hasPrettierConfig env doc.fileName) customOptions
    ((resolveConfig env doc.fileName (some true)).config.getD emptyConfig)
    (vscodeOptionsLayer (env.getConfig doc.uri) (selectParser env doc).1)

/-- The message logged when config resolution fails (lines 144-148). -/
def resolveFailMessage (fileName : String) : String :=
  "Failed to resolve config for " ++ fileName ++
    ". Falling back to the default config settings."

/-- The fallback warning message (lines 172-178). -/
def fallbackWarning (env : Env) (doc : TextDocument) : String :=
  "prettier@" ++ env.localVersion ++ " doesn't support " ++ doc.languageId ++
    ". Falling back to bundled prettier@" ++ env.bundledVersion ++ "."

/-- The events emitted when the config resolution with `editorconfig: true`
reports an error (lines 144-148). -/
def resolveErrorEvents (env : Env) (doc : TextDocument) : List Event :=
  match (resolveConfig env doc.fileName (some true)).error with
  | some _ => [Event.output (resolveFailMessage doc.fileName)]
  | none => []

/-- The engine-announcement events: on the bundled path the fallback warning
plus `setUsedModule('prettier', bundledVersion, true)` (lines 180-182),
otherwise `setUsedModule('prettier', localVersion, false)` (line 198). -/
def engineEvents (env : Env) (doc : TextDocument) : List Event :=
  if usesBundled env doc then
    [Event.output (fallbackWarning env doc),
     Event.usedModule "prettier" env.bundledVersion true]
  else
    [Event.usedModule "prettier" env.localVersion false]

/-- The promise chain `format ... .then(lint).then(obj.results[0].output)`
(lines 183-192 and 201-210): run the formatter; on success pipe the pretty
text through the linter autofix.  Returns the chain's outcome together with
the invocation events. -/
def runFormatChain (fmt : String → ConfigMap → Except String String)
    (bundled : Bool) (lint : String → Except String String)
    (text : String) (opts : ConfigMap) : Except String String × List Event :=
  match fmt text opts with
  | Except.error e => (Except.error e, [Event.formatCall bundled text])
  | Except.ok pretty =>
      match lint pretty with
      | Except.error e =>
          (Except.error e, [Event.formatCall bundled text, Event.lintCall pretty])
      | Except.ok out =>
          (Except.ok out, [Event.formatCall bundled text, Event.lintCall pretty])

/-- The outcome of the format-then-lint chain of the code path `format`
takes, with its events. -/
def formatChainResult (env : Env) (text : String) (doc : TextDocument)
    (customOptions : ConfigMap) : Except String String × List Event :=
  runFormatChain (chosenEngineFormat env doc) (usesBundled env doc) env.lintText
    text (mergedOptions env doc customOptions)

/-- Modelled from the spec: `safeExecution` lives in `errorHandler.ts`, which
is not under `src/`.  Spec §4.6 (failure recovery wrapper): on success return
the produced text; on failure report the error through a diagnostic channel
and return the original, unformatted input text.  Totality models "never
fatal / nothing escapes". -/
def safeExecution (result : Except String String) (defaultText fileName : String) :
    String × List Event :=
  match result with
  | Except.ok t => (t, [])
  | Except.error e => (defaultText, [Event.errorReport e fileName])

/-- `format` from `PrettierEditProvider.ts` (lines 93-214).  Returns the
final text and the event trace.  Structure mirrors the source: disabled
languages return the input unchanged; then parser selection; then
`hasPrettierConfig` (first resolution call); the `requireConfig` skip; the
second resolution call (`editorconfig: true`) with its error diagnostic; the
configuration merge; then the engine branch, the format-then-lint chain and
the failure-recovery wrapper. -/
def format (env : Env) (text : String) (doc : TextDocument)
    (customOptions : ConfigMap) : String × List Event :=
  if (env.getConfig doc.uri).disableLanguages.contains doc.languageId then
    (text, [])
  else if !hasPrettierConfig env doc.fileName && (env.getConfig doc.uri).requireConfig then
    (text, [Event.resolveConfigCall doc.fileName none])
  else
    ((safeExecution (formatChainResult env text doc customOptions).1 text doc.fileName).1,
      [Event.resolveConfigCall doc.fileName none,
       Event.resolveConfigCall doc.fileName (some true)]
        ++ resolveErrorEvents env doc ++ engineEvents env doc
        ++ (formatChainResult env text doc customOptions).2
        ++ (safeExecution (formatChainResult env text doc customOptions).1 text doc.fileName).2)

/-- `document.lineAt(i).text`: the i-th line of the document. -/
def lineAt (doc : TextDocument) (i : Nat) : String := doc.lines.getD i ""

/-- `fullDocumentRange` (lines 216-219): from (0,0) to the end of the last
line. -/
def fullDocumentRange (doc : TextDocument) : Range :=
  { start := { line := 0, character := 0 },
    stop := { line := doc.lines.length - 1,
              character := (lineAt doc (doc.lines.length - 1)).length } }

/-- `document.getText()`: the full text, lines joined by newlines. -/
def getText (doc : TextDocument) : String :=
  String.intercalate "\n" doc.lines

/-- `document.offsetAt(position)`: characters of preceding lines (plus one
newline each) plus the character offset. -/
def offsetAt (doc : TextDocument) (p : Position) : Nat :=
  (doc.lines.take p.line).foldl (fun acc l => acc + l.length + 1) 0 + p.character

/-- The call-site options of the range operation (lines 233-236):
`\x7b rangeStart, rangeEnd \x7d` as document offsets. -/
def rangeOptions (doc : TextDocument) (r : Range) : ConfigMap := fun k =>
  if k = "rangeStart" then some (ConfigValue.num (offsetAt doc r.start))
  else if k = "rangeEnd" then some (ConfigValue.num (offsetAt doc r.stop))
  else none

/-- `PrettierEditProvider._provideEdits` (lines 247-257): the ignore check,
then `format` on the full document text wrapped as one full-document
replacement edit. -/
def provideEdits (env : Env) (doc : TextDocument) (options : ConfigMap) :
    List TextEdit × List Event :=
  if !doc.isUntitled && env.fileIsIgnored doc.fileName then
    ([], [])
  else
    let r := format env (getText doc) doc options
    ([TextEdit.replace (fullDocumentRange doc) r.1], r.2)

/-- `provideDocumentFormattingEdits` (lines 239-245). -/
def provideDocumentFormattingEdits (env : Env) (doc : TextDocument) :
    List TextEdit × List Event :=
  provideEdits env doc emptyConfig

/-- `provideDocumentRangeFormattingEdits` (lines 227-237). -/
def provideDocumentRangeFormattingEdits (env : Env) (doc : TextDocument)
    (r : Range) : List TextEdit × List Event :=
  provideEdits env doc (rangeOptions doc r)

/-! ## Basic lemmas about the embedded operations -/

/-- `objectAssign` evaluated at a key. -/
theorem objectAssign_apply (target source : ConfigMap) (k : String) :
    objectAssign target source k =
      match source k with
      | some v => some v
      | none => target k := rfl

/-- The vscode options layer always carries the selected parser. -/
theorem vscodeOptionsLayer_parserKey (c : PrettierVSCodeConfig) (p : String) :
    vscodeOptionsLayer c p "parser" = some (ConfigValue.str p) := rfl

/-- The failure-recovery wrapper never emits a formatter invocation. -/
theorem safeExecution_no_formatCall (res : Except String String) (d f : String)
    (b : Bool) (t : String) : Event.formatCall b t ∉ (safeExecution res d f).2 := by
  cases res <;> simp [safeExecution]

/-- A formatter invocation recorded by the chain always carries the text the
chain was given. -/
theorem runFormatChain_formatCall (fmt : String → ConfigMap → Except String String)
    (b : Bool) (lint : String → Except String String) (text : String)
    (opts : ConfigMap) (b' : Bool) (t : String)
    (h : Event.formatCall b' t ∈ (runFormatChain fmt b lint text opts).2) :
    t = text := by
  unfold runFormatChain at h
  cases hf : fmt text opts with
  | error e => rw [hf] at h; simp at h; exact h.2
  | ok pretty =>
      rw [hf] at h
      cases hl : lint pretty <;> simp [hl] at h <;> tauto

/-- When the formatter stage of the chain succeeds, the linter is invoked on
its output. -/
theorem runFormatChain_lintCall (fmt : String → ConfigMap → Except String String)
    (b : Bool) (lint : String → Except String String) (text : String)
    (opts : ConfigMap) (pretty : String) (h : fmt text opts = Except.ok pretty) :
    Event.lintCall pretty ∈ (runFormatChain fmt b lint text opts).2 := by
  unfold runFormatChain
  rw [h]
  cases hl : lint pretty <;> simp [hl]

/-- The resolve-error diagnostic events contain no formatter invocation. -/
theorem resolveErrorEvents_no_formatCall (env : Env) (doc : TextDocument)
    (b : Bool) (t : String) :
    Event.formatCall b t ∉ resolveErrorEvents env doc := by
  unfold resolveErrorEvents
  cases (resolveConfig env doc.fileName (some true)).error <;> simp

/-- The engine-announcement events contain no formatter invocation. -/
theorem engineEvents_no_formatCall (env : Env) (doc : TextDocument)
    (b : Bool) (t : String) :
    Event.formatCall b t ∉ engineEvents env doc := by
  unfold engineEvents
  cases usesBundled env doc <;> simp

/-- Shared skip lemma: with `requireConfig` set and no resolvable project
configuration, `format` returns the input text and performs no formatter or
linter call. -/
theorem format_requireConfig_skip (env : Env) (text : String) (doc : TextDocument)
    (cm : ConfigMap)
    (hreq : (env.getConfig doc.uri).requireConfig = true)
    (hnoc : hasPrettierConfig env doc.fileName = false) :
    (format env text doc cm).1 = text ∧
      ∀ e ∈ (format env text doc cm).2,
        (∀ b t, e ≠ Event.formatCall b t) ∧ ∀ t, e ≠ Event.lintCall t := by
  unfold format
  cases hd : (env.getConfig doc.uri).disableLanguages.contains doc.languageId <;>
    simp [hd, hreq, hnoc]

/-! ## Concrete environments used by witnesses and counterexamples -/

/-- A concrete host configuration. -/
def baseConfig : PrettierVSCodeConfig where
  printWidth := 80
  tabWidth := 2
  singleQuote := true
  trailingComma := "none"
  bracketSpacing := true
  jsxBracketSameLine := false
  semi := false
  useTabs := false
  proseWrap := "preserve"
  arrowParens := "avoid"
  parser := ""
  disableLanguages := []
  requireConfig := false

/-- A concrete `JavaScript` language group: its languages parse with
`babylon` or `flow`. -/
def jsGroup : List LanguageDescription := [{ parsers := ["babylon", "flow"] }]

/-- A concrete environment: both prettier copies know `javascript` (parser
`babylon`), nothing else; no project config; format and lint append markers. -/
def baseEnv : Env where
  getConfig := fun _ => baseConfig
  localVersion := "1.0.0"
  bundledVersion := "2.0.0"
  getParsersFromLanguageId := fun lang _ _ =>
    if lang = "javascript" then ["babylon"] else []
  getGroup := fun g => if g = "JavaScript" then jsGroup else []
  prettierResolveConfig := fun _ _ => Except.ok none
  localFormat := fun t _ => Except.ok (t ++ "+local")
  bundledFormat := fun t _ => Except.ok (t ++ "+bundled")
  lintText := fun t => Except.ok (t ++ "+fixed")
  fileIsIgnored := fun _ => false

/-- A concrete saved javascript document. -/
def sampleDoc : TextDocument where
  fileName := "/p/a.js"
  languageId := "javascript"
  uri := "file:///p/a.js"
  isUntitled := false
  lines := ["const x=1"]

/-- A concrete saved plaintext document. -/
def plainDoc : TextDocument where
  fileName := "/p/notes.txt"
  languageId := "plaintext"
  uri := "file:///p/notes.txt"
  isUntitled := false
  lines := ["hello"]

/-- A concrete saved typescript document. -/
def tsDoc : TextDocument where
  fileName := "/p/a.ts"
  languageId := "typescript"
  uri := "file:///p/a.ts"
  isUntitled := false
  lines := ["let x: number = 1"]

/-- Environment whose host configuration disables `javascript`. -/
def disabledEnv : Env :=
  { baseEnv with getConfig := fun _ =>
      { baseConfig with disableLanguages := ["javascript"] } }

/-- Environment that requires a project configuration and has none. -/
def requireEnv : Env :=
  { baseEnv with getConfig := fun _ => { baseConfig with requireConfig := true } }

/-- Environment whose config discovery throws, with `requireConfig` set. -/
def resolveErrEnv : Env :=
  { baseEnv with
      getConfig := fun _ => { baseConfig with requireConfig := true },
      prettierResolveConfig := fun _ _ => Except.error "EACCES" }

/-- Environment whose local formatter throws. -/
def formatErrEnv : Env :=
  { baseEnv with localFormat := fun _ _ => Except.error "SyntaxError" }

/-- Environment whose linter rejects. -/
def lintErrEnv : Env :=
  { baseEnv with lintText := fun _ => Except.error "standard failed" }

/-- Environment whose ignore-predicate ignores every path. -/
def ignoredEnv : Env := { baseEnv with fileIsIgnored := fun _ => true }

/-- Environment for the dialect-selection scenario: the local prettier
(1.0.0) advertises no parsers for `typescript`, the bundled one (2.0.0)
advertises `["typescript"]`. -/
def tsEnv : Env :=
  { baseEnv with getParsersFromLanguageId := fun lang ver _ =>
      if lang = "typescript" then
        if ver = "2.0.0" then ["typescript"] else []
      else if lang = "javascript" then ["babylon"]
      else [] }

/-- Concrete call-site configuration maps used by the merge witness. -/
def addW : ConfigMap := fun k =>
  if k = "singleQuote" then some (ConfigValue.bool true) else none

/-- Concrete project-file configuration map used by the merge witness. -/
def projW : ConfigMap := fun k =>
  if k = "semi" then some (ConfigValue.bool false) else none

/-- Concrete host configuration map used by the merge witness. -/
def hostW : ConfigMap := fun k =>
  if k = "parser" then some (ConfigValue.str "babylon")
  else if k = "semi" then some (ConfigValue.bool true)
  else if k = "singleQuote" then some (ConfigValue.bool false)
  else none

/-! ## The claims -/

/-- C5: for every document whose language identifier is in the host
configuration's `disableLanguages` list, `format` returns the input text
exactly and performs no effect at all — in particular neither the formatter
nor the linter is invoked. -/
theorem claim_C5_disabled_language_noop (env : Env) (text : String)
    (doc : TextDocument) (cm : ConfigMap)
    (h : (env.getConfig doc.uri).disableLanguages.contains doc.languageId = true) :
    format env text doc cm = (text, []) := by
  unfold format
  rw [if_pos h]

/-- Witness for C5: formatting a javascript document while `javascript` is in
the disable list returns the input unchanged with an empty trace. -/
theorem claim_C5_witness :
    ((disabledEnv.getConfig sampleDoc.uri).disableLanguages.contains
        sampleDoc.languageId = true) ∧
      format disabledEnv "const x=1" sampleDoc emptyConfig = ("const x=1", []) :=
  ⟨by decide,
    claim_C5_disabled_language_noop disabledEnv "const x=1" sampleDoc emptyConfig
      (by decide)⟩

/-- C6: when the host configuration's `requireConfig` flag is true and no
project configuration resolves for the document's path, `format` returns the
input text exactly and the formatter (and linter) is never invoked. -/
theorem claim_C6_requireConfig_skip (env : Env) (text : String)
    (doc : TextDocument) (cm : ConfigMap)
    (hreq : (env.getConfig doc.uri).requireConfig = true)
    (hnoc : hasPrettierConfig env doc.fileName = false) :
    (format env text doc cm).1 = text ∧
      ∀ e ∈ (format env text doc cm).2,
        (∀ b t, e ≠ Event.formatCall b t) ∧ ∀ t, e ≠ Event.lintCall t :=
  format_requireConfig_skip env text doc cm hreq hnoc

/-- Witness for C6: with `requireConfig` set and no project configuration the
sample document's text comes back unchanged. -/
theorem claim_C6_witness :
    (format requireEnv "const x=1" sampleDoc emptyConfig).1 = "const x=1" ∧
      ∀ e ∈ (format requireEnv "const x=1" sampleDoc emptyConfig).2,
        (∀ b t, e ≠ Event.formatCall b t) ∧ ∀ t, e ≠ Event.lintCall t :=
  claim_C6_requireConfig_skip requireEnv "const x=1" sampleDoc emptyConfig
    (by decide) (by decide)

/-- C2: configuration merge precedence.  For every key, a call-site value
wins over a project-file value, a project-file value wins over the base
layer; with no project configuration file the base layer is the host
configuration, and with one the seeded parser key is only a default: it is
overridden by the same rule and survives only when neither higher layer sets
`parser`.  The merge is shallow and last-writer-wins per key. -/
theorem claim_C2_merge_precedence (hasC : Bool) (add proj host : ConfigMap)
    (k : String) :
    (∀ v, add k = some v → mergeConfig hasC add proj host k = some v) ∧
    (add k = none → ∀ v, proj k = some v →
      mergeConfig hasC add proj host k = some v) ∧
    (hasC = false → add k = none → proj k = none →
      mergeConfig hasC add proj host k = host k) ∧
    (hasC = true → add "parser" = none → proj "parser" = none →
      mergeConfig hasC add proj host "parser" = host "parser") := by
  refine ⟨fun v hv => ?_, fun ha v hv => ?_, fun hc ha hp => ?_,
    fun hc ha hp => ?_⟩
  · cases hasC <;> simp [mergeConfig, objectAssign, hv]
  · cases hasC <;> simp [mergeConfig, objectAssign, ha, hv]
  · subst hc; simp [mergeConfig, objectAssign, ha, hp]
  · subst hc; simp [mergeConfig, objectAssign, parserSeed, ha, hp]

/-- Witness for C2: on concrete layers, the call-site `singleQuote` wins, the
project-file `semi` wins over the host value, and with a project file present
but neither layer setting `parser`, the seeded host parser survives. -/
theorem claim_C2_witness :
    mergeConfig false addW projW hostW "singleQuote" =
      some (ConfigValue.bool true) ∧
    mergeConfig false addW projW hostW "semi" = some (ConfigValue.bool false) ∧
    mergeConfig true addW projW hostW "parser" = hostW "parser" := by
  refine ⟨?_, ?_, ?_⟩
  · exact (claim_C2_merge_precedence false addW projW hostW "singleQuote").1
      (ConfigValue.bool true) rfl
  · exact (claim_C2_merge_precedence false addW projW hostW "semi").2.1 rfl
      (ConfigValue.bool false) rfl
  · exact (claim_C2_merge_precedence true addW projW hostW "parser").2.2.2 rfl
      rfl rfl

/-- C7: once the merge completes, the merged configuration always carries a
parser value (never undefined): in the project-config branch the inferred
parser is seeded first, in the other branch it sits in the host layer, and
every override replaces it with a present value. -/
theorem claim_C7_parser_always_present (env : Env) (doc : TextDocument)
    (cm : ConfigMap) :
    (mergedOptions env doc cm "parser").isSome = true := by
  unfold mergedOptions mergeConfig
  cases hasPrettierConfig env doc.fileName <;>
    cases hcm : cm "parser" <;>
      cases hf : ((resolveConfig env doc.fileName (some true)).config.getD
          emptyConfig) "parser" <;>
        simp [objectAssign, parserSeed, hcm, hf, vscodeOptionsLayer_parserKey]

/-- C8: for a saved document whose path the injected ignore-predicate
reports as ignored, both public edit operations return an empty edit list and
an empty trace: no formatter, linter, or config-resolution call happens. -/
theorem claim_C8_ignored_no_edits (env : Env) (doc : TextDocument) (r : Range)
    (hu : doc.isUntitled = false)
    (hi : env.fileIsIgnored doc.fileName = true) :
    provideDocumentFormattingEdits env doc = ([], []) ∧
      provideDocumentRangeFormattingEdits env doc r = ([], []) := by
  unfold provideDocumentFormattingEdits provideDocumentRangeFormattingEdits
    provideEdits
  simp [hu, hi]

/-- Witness for C8: the all-ignoring environment yields no edits and no
events for the sample document, for both operations. -/
theorem claim_C8_witness :
    provideDocumentFormattingEdits ignoredEnv sampleDoc = ([], []) ∧
      provideDocumentRangeFormattingEdits ignoredEnv sampleDoc
        { start := { line := 0, character := 0 },
          stop := { line := 0, character := 4 } } = ([], []) :=
  claim_C8_ignored_no_edits ignoredEnv sampleDoc
    { start := { line := 0, character := 0 },
      stop := { line := 0, character := 4 } } (by decide) (by decide)

/-- C10: if the prettier library's config resolution throws, the
`resolveConfig` wrapper resolves (it is a total function) with `config` null
and the `error` field set, `hasPrettierConfig` reports false, and
consequently with `requireConfig` set `format` returns the input unchanged
without invoking the formatter or the linter. -/
theorem claim_C10_resolve_error_recovery (env : Env) (text : String)
    (doc : TextDocument) (cm : ConfigMap) (e : String)
    (h : env.prettierResolveConfig doc.fileName none = Except.error e)
    (hreq : (env.getConfig doc.uri).requireConfig = true) :
    resolveConfig env doc.fileName none = { config := none, error := some e } ∧
    hasPrettierConfig env doc.fileName = false ∧
    (format env text doc cm).1 = text ∧
      ∀ ev ∈ (format env text doc cm).2,
        (∀ b t, ev ≠ Event.formatCall b t) ∧ ∀ t, ev ≠ Event.lintCall t := by
  have h1 : resolveConfig env doc.fileName none =
      { config := none, error := some e } := by
    unfold resolveConfig; rw [h]
  have h2 : hasPrettierConfig env doc.fileName = false := by
    unfold hasPrettierConfig; rw [h1]; rfl
  have h3 := format_requireConfig_skip env text doc cm hreq h2
  exact ⟨h1, h2, h3.1, h3.2⟩

/-- Witness for C10: an environment whose config discovery throws `EACCES`
with `requireConfig` set returns the sample text unchanged. -/
theorem claim_C10_witness :
    resolveConfig resolveErrEnv sampleDoc.fileName none =
      { config := none, error := some "EACCES" } ∧
    hasPrettierConfig resolveErrEnv sampleDoc.fileName = false ∧
    (format resolveErrEnv "const x=1" sampleDoc emptyConfig).1 = "const x=1" ∧
      ∀ ev ∈ (format resolveErrEnv "const x=1" sampleDoc emptyConfig).2,
        (∀ b t, ev ≠ Event.formatCall b t) ∧ ∀ t, ev ≠ Event.lintCall t :=
  claim_C10_resolve_error_recovery resolveErrEnv "const x=1" sampleDoc
    emptyConfig "EACCES" rfl (by decide)

/-- C1: for every document text and configuration, when the request is not
skipped and the format-then-autofix chain fails (the formatter throws or the
linter rejects), `format` resolves to the original input text and records a
diagnostic entry.  `format` being a total function, no exception or rejection
surfaces to the host. -/
theorem claim_C1_failure_returns_original (env : Env) (text : String)
    (doc : TextDocument) (cm : ConfigMap) (e : String)
    (hnd : (env.getConfig doc.uri).disableLanguages.contains doc.languageId
      = false)
    (hns : (!hasPrettierConfig env doc.fileName &&
      (env.getConfig doc.uri).requireConfig) = false)
    (herr : (formatChainResult env text doc cm).1 = Except.error e) :
    (format env text doc cm).1 = text ∧
      Event.errorReport e doc.fileName ∈ (format env text doc cm).2 := by
  unfold format
  simp only [hnd, Bool.false_eq_true, if_false, hns]
  rw [herr]
  simp [safeExecution]

/-- Witness for C1: with a formatter that throws `SyntaxError`, the sample
text comes back unchanged and the error is reported. -/
theorem claim_C1_witness :
    (format formatErrEnv "const x=1" sampleDoc emptyConfig).1 = "const x=1" ∧
      Event.errorReport "SyntaxError" "/p/a.js" ∈
        (format formatErrEnv "const x=1" sampleDoc emptyConfig).2 :=
  claim_C1_failure_returns_original formatErrEnv "const x=1" sampleDoc
    emptyConfig "SyntaxError" (by decide) (by decide) rfl

/-- C3: for every request that reaches the formatter, if the formatter of the
chosen engine (bundled or project-local, the quantification covers both, and
independently of the JavaScript-family check) returns a result, the linter
autofix pass is invoked on exactly that result. -/
theorem claim_C3_lint_always_applied (env : Env) (text : String)
    (doc : TextDocument) (cm : ConfigMap) (pretty : String)
    (hnd : (env.getConfig doc.uri).disableLanguages.contains doc.languageId
      = false)
    (hns : (!hasPrettierConfig env doc.fileName &&
      (env.getConfig doc.uri).requireConfig) = false)
    (hok : chosenEngineFormat env doc text (mergedOptions env doc cm)
      = Except.ok pretty) :
    Event.lintCall pretty ∈ (format env text doc cm).2 := by
  have hmem := runFormatChain_lintCall (chosenEngineFormat env doc)
    (usesBundled env doc) env.lintText text (mergedOptions env doc cm) pretty hok
  unfold format
  simp only [hnd, Bool.false_eq_true, if_false, hns]
  simp only [formatChainResult] at hmem
  simp [List.mem_append]
  tauto

/-- Witness for C3: on the bundled-engine path of the typescript scenario the
linter receives the bundled formatter's output. -/
theorem claim_C3_witness :
    Event.lintCall "let x: number = 1+bundled" ∈
      (format tsEnv "let x: number = 1" tsDoc emptyConfig).2 :=
  claim_C3_lint_always_applied tsEnv "let x: number = 1" tsDoc emptyConfig
    "let x: number = 1+bundled" (by decide) (by decide) rfl

/-- Every formatter invocation recorded by `format` is on the full text
`format` was given. -/
theorem format_formatCall_text (env : Env) (text : String) (doc : TextDocument)
    (cm : ConfigMap) (b : Bool) (t : String)
    (h : Event.formatCall b t ∈ (format env text doc cm).2) : t = text := by
  unfold format at h
  split at h
  · simp at h
  · split at h
    · simp at h
    · simp only [List.mem_append, List.mem_cons, List.mem_singleton] at h
      rcases h with ((((h | h) | h) | h) | h) | h
      · exact absurd h (by simp)
      · exact absurd h (by simp)
      · exact absurd h (resolveErrorEvents_no_formatCall env doc b t)
      · exact absurd h (engineEvents_no_formatCall env doc b t)
      · exact runFormatChain_formatCall (chosenEngineFormat env doc)
          (usesBundled env doc) env.lintText text (mergedOptions env doc cm)
          b t h
      · exact absurd h (safeExecution_no_formatCall
          (formatChainResult env text doc cm).1 text doc.fileName b t)

/-- C9: for both public operations the formatter only ever runs on the full
document text (the requested range enters only the call-site configuration
layer), and the edit list is empty or a single edit replacing the whole
document, whose range runs from position (0,0) to the end of the last
line. -/
theorem claim_C9_full_document_edit (env : Env) (doc : TextDocument)
    (r : Range) :
    (∀ b t, Event.formatCall b t ∈ (provideDocumentFormattingEdits env doc).2 →
      t = getText doc) ∧
    (∀ b t, Event.formatCall b t ∈
      (provideDocumentRangeFormattingEdits env doc r).2 → t = getText doc) ∧
    ((provideDocumentFormattingEdits env doc).1 = [] ∨
      ∃ code, (provideDocumentFormattingEdits env doc).1 =
        [TextEdit.replace (fullDocumentRange doc) code]) ∧
    ((provideDocumentRangeFormattingEdits env doc r).1 = [] ∨
      ∃ code, (provideDocumentRangeFormattingEdits env doc r).1 =
        [TextEdit.replace (fullDocumentRange doc) code]) ∧
    fullDocumentRange doc =
      { start := { line := 0, character := 0 },
        stop := { line := doc.lines.length - 1,
                  character := (lineAt doc (doc.lines.length - 1)).length } } := by
  unfold provideDocumentFormattingEdits provideDocumentRangeFormattingEdits
    provideEdits
  by_cases hig : (!doc.isUntitled && env.fileIsIgnored doc.fileName) = true
  · simp only [hig, if_true]
    refine ⟨?_, ?_, Or.inl trivial, Or.inl trivial, rfl⟩ <;> intro b t h <;>
      simp at h
  · rw [Bool.not_eq_true] at hig
    simp only [hig, Bool.false_eq_true, if_false]
    refine ⟨?_, ?_, Or.inr ⟨_, rfl⟩, Or.inr ⟨_, rfl⟩, rfl⟩ <;> intro b t h <;>
      exact format_formatCall_text env (getText doc) doc _ b t h

/-- Witness for C9: on the sample javascript document the whole-document
operation produces the full-document replacement edit, and the concrete
formatter invocation it makes carries the full document text. -/
theorem claim_C9_witness :
    (("const x=1" : String) = getText sampleDoc) ∧
      ((provideDocumentFormattingEdits baseEnv sampleDoc).1 = [] ∨
        ∃ code, (provideDocumentFormattingEdits baseEnv sampleDoc).1 =
          [TextEdit.replace (fullDocumentRange sampleDoc) code]) := by
  constructor
  · exact (claim_C9_full_document_edit baseEnv sampleDoc
      { start := { line := 0, character := 0 },
        stop := { line := 0, character := 0 } }).1 false "const x=1" (by decide)
  · exact (claim_C9_full_document_edit baseEnv sampleDoc
      { start := { line := 0, character := 0 },
        stop := { line := 0, character := 0 } }).2.2.1

/-- The config-resolution failure message never coincides with the fallback
warning: their fixed prefixes start with different characters. -/
theorem resolveFailMessage_ne_fallbackWarning (f : String) (env : Env)
    (doc : TextDocument) : resolveFailMessage f ≠ fallbackWarning env doc := by
  intro h
  have h2 := congrArg String.data h
  unfold resolveFailMessage fallbackWarning at h2
  simp only [String.data_append, List.cons_append, List.cons.injEq] at h2
  exact absurd h2.1 (by decide)

/-- The resolve-error diagnostic events never contain the fallback
warning. -/
theorem count_warning_resolveErrorEvents (env : Env) (doc : TextDocument) :
    List.count (Event.output (fallbackWarning env doc))
      (resolveErrorEvents env doc) = 0 := by
  unfold resolveErrorEvents
  cases (resolveConfig env doc.fileName (some true)).error <;>
    simp [List.count_cons, resolveFailMessage_ne_fallbackWarning doc.fileName env doc]

/-- The format-then-lint chain emits no `output` event at all. -/
theorem count_output_runFormatChain (fmt : String → ConfigMap → Except String String)
    (b : Bool) (lint : String → Except String String) (text : String)
    (opts : ConfigMap) (s : String) :
    List.count (Event.output s) (runFormatChain fmt b lint text opts).2 = 0 := by
  unfold runFormatChain
  cases fmt text opts with
  | error e => simp
  | ok pretty => cases hl : lint pretty <;> simp [hl]

/-- The failure-recovery wrapper emits no `output` event. -/
theorem count_output_safeExecution (res : Except String String) (d f s : String) :
    List.count (Event.output s) (safeExecution res d f).2 = 0 := by
  cases res <;> simp [safeExecution]

/-- The engine-announcement events carry the fallback warning exactly once on
the bundled path and never otherwise. -/
theorem count_warning_engineEvents (env : Env) (doc : TextDocument) :
    List.count (Event.output (fallbackWarning env doc)) (engineEvents env doc) =
      if usesBundled env doc then 1 else 0 := by
  unfold engineEvents
  cases usesBundled env doc <;> simp

/-- C4 (amended): for every document whose language yields an empty
candidate-parser list from the project-local formatter, the selector takes
the bundled formatter's first candidate (or the fixed default `babylon` when
that list is empty too) and sets `useBundled := true`; on a request that is
not skipped, the fallback warning is then logged exactly once precisely when
the selected parser is not in the JavaScript-family group (in which case the
request is also marked as using the bundled engine), and not at all when the
selected parser is JavaScript-family (the code then takes the project-local
engine path). -/
theorem claim_C4_amended_bundled_fallback (env : Env) (text : String)
    (doc : TextDocument) (cm : ConfigMap)
    (hEmpty : dynamicParsers env doc = [])
    (hnd : (env.getConfig doc.uri).disableLanguages.contains doc.languageId
      = false)
    (hns : (!hasPrettierConfig env doc.fileName &&
      (env.getConfig doc.uri).requireConfig) = false) :
    selectParser env doc =
      (jsOrStr ((bundledParsers env doc).headD "") "babylon", true) ∧
    (doesParserSupportEslint env (selectParser env doc).1 = false →
      List.count (Event.output (fallbackWarning env doc))
        (format env text doc cm).2 = 1 ∧
      Event.usedModule "prettier" env.bundledVersion true ∈
        (format env text doc cm).2) ∧
    (doesParserSupportEslint env (selectParser env doc).1 = true →
      List.count (Event.output (fallbackWarning env doc))
        (format env text doc cm).2 = 0) := by
  have hsel : selectParser env doc =
      (jsOrStr ((bundledParsers env doc).headD "") "babylon", true) := by
    unfold selectParser
    rw [hEmpty]
  have hfmt : (format env text doc cm).2 =
      [Event.resolveConfigCall doc.fileName none,
       Event.resolveConfigCall doc.fileName (some true)]
        ++ resolveErrorEvents env doc ++ engineEvents env doc
        ++ (formatChainResult env text doc cm).2
        ++ (safeExecution (formatChainResult env text doc cm).1 text
            doc.fileName).2 := by
    unfold format
    simp only [hnd, Bool.false_eq_true, if_false, hns]
  refine ⟨hsel, fun hjs => ?_, fun hjs => ?_⟩
  · have hub : usesBundled env doc = true := by
      unfold usesBundled
      rw [hjs, hsel]
      simp
    constructor
    · rw [hfmt]
      simp only [List.count_append, count_warning_resolveErrorEvents,
        count_warning_engineEvents, count_output_runFormatChain,
        count_output_safeExecution, hub, if_true, formatChainResult]
      simp [List.count_cons]
    · rw [hfmt]
      have : Event.usedModule "prettier" env.bundledVersion true ∈
          engineEvents env doc := by
        unfold engineEvents
        rw [hub]
        simp
      simp [List.mem_append, this]
  · have hub : usesBundled env doc = false := by
      unfold usesBundled
      rw [hjs]
      simp
    rw [hfmt]
    simp only [List.count_append, count_warning_resolveErrorEvents,
      count_warning_engineEvents, count_output_runFormatChain,
      count_output_safeExecution, hub, if_false, formatChainResult]
    simp [List.count_cons]

/-- Counterexample for C4 as stated: a plaintext document (no parser
candidates from either formatter) satisfies the claim's hypothesis and the
selector does fall back (`babylon`, `useBundled := true`), but `babylon` is
JavaScript-family, so the request proceeds on the project-local engine path:
no fallback warning is ever logged (the claim requires exactly one) and the
engine recorded in use is the local one, not the bundled one. -/
theorem claim_C4_counterexample :
    dynamicParsers baseEnv plainDoc = [] ∧
    (baseEnv.getConfig plainDoc.uri).disableLanguages.contains
      plainDoc.languageId = false ∧
    selectParser baseEnv plainDoc = ("babylon", true) ∧
    List.count (Event.output (fallbackWarning baseEnv plainDoc))
      (format baseEnv "hello" plainDoc emptyConfig).2 = 0 ∧
    Event.usedModule "prettier" baseEnv.bundledVersion true ∉
      (format baseEnv "hello" plainDoc emptyConfig).2 ∧
    Event.usedModule "prettier" baseEnv.localVersion false ∈
      (format baseEnv "hello" plainDoc emptyConfig).2 := by
  decide

/-- Witness for C4 (amended), the spec's dialect-selection scenario: language
`typescript`, local formatter advertises no parsers for it, bundled formatter
advertises `["typescript"]`; the selector returns `"typescript"` with
`useBundled := true`, the fallback warning is logged exactly once, and the
bundled engine is recorded in use. -/
theorem claim_C4_witness :
    selectParser tsEnv tsDoc = ("typescript", true) ∧
    List.count (Event.output (fallbackWarning tsEnv tsDoc))
      (format tsEnv "let x: number = 1" tsDoc emptyConfig).2 = 1 ∧
    Event.usedModule "prettier" "2.0.0" true ∈
      (format tsEnv "let x: number = 1" tsDoc emptyConfig).2 := by
  have h := claim_C4_amended_bundled_fallback tsEnv "let x: number = 1" tsDoc
    emptyConfig (by decide) (by decide) (by decide)
  have h2 := h.2.1 (by decide)
  refine ⟨?_, h2.1, h2.2⟩
  rw [h.1]
  decide

end PrettierStandard
